import Mathlib

/-!
# Verification of the academia-flow manuscript review workflow

Shallow embedding of the manuscript peer-review workflow implemented in
`src/controllers/userController.ts` (the concatenated controllers of the
academia-flow server): manuscript submission, reviewer assignment, review
intake with status escalation, editorial decision, the administrative
status override, and the notification endpoints.

Modelling conventions:
* MongoDB collections become lists of records inside a single `DB` record;
  `find?` models `findOne`/`findById`, `filter` models `find` with a query,
  and a `map` that replaces the matching document models `save` /
  `findByIdAndUpdate` / `updateMany`.
* Each workflow handler becomes a function `DB → inputs →
  Except ApiError (DB × List Event)`.  Every early `res.status(4xx)` return
  in the source happens before any write, so an `Except.error` result
  leaves the store untouched; `runDB` makes that reading explicit.
* The `List Event` component records the storage writes in program order
  (document creations, manuscript saves, notification creations), which is
  what the temporal claims about notification ordering are stated over.
* JavaScript falsy checks on required string fields (`!title` etc.) are
  modelled as equality with the empty string; `x || 'default'` on an
  optional looked-up name is modelled by `displayName`.
-/

namespace AcademiaFlow

/-- `UserRole` from `userModel.ts`. -/
inductive Role where
  | admin
  | author
  | reviewer
  | editor
  deriving DecidableEq

/-- `ManuscriptStatus` from `manuscriptModel.ts`. -/
inductive MStatus where
  | SUBMITTED
  | UNDER_REVIEW
  | DECISION_READY
  | ACCEPTED
  | REJECTED
  deriving DecidableEq

/-- `ReviewRecommendation` from `reviewModel.ts`. -/
inductive Recommendation where
  | ACCEPT
  | MINOR_REVISION
  | MAJOR_REVISION
  | REJECT
  deriving DecidableEq

/-- A user document (the fields the workflow reads). -/
structure UserRec where
  uid : Nat
  fullname : String
  role : Role
  isActive : Bool
  deriving DecidableEq

/-- A manuscript document (`manuscriptModel.ts`). -/
structure ManuscriptRec where
  mid : Nat
  title : String
  abstract : String
  keywords : String
  authors : String
  submittedBy : Nat
  assignedReviewers : List Nat
  status : MStatus
  fileName : String
  fileUrl : String
  deriving DecidableEq

/-- A review document (`reviewModel.ts`). -/
structure ReviewRec where
  manuscriptId : Nat
  reviewerId : Nat
  recommendation : Recommendation
  comments : String
  strengths : String
  weaknesses : String
  suggestions : String
  deriving DecidableEq

/-- A notification document (`notificationModel.ts`); `isRead` defaults to
`false` on creation. -/
structure NotificationRec where
  userId : Nat
  message : String
  isRead : Bool
  deriving DecidableEq

/-- The persistent store: one list per MongoDB collection, in insertion
order. -/
structure DB where
  users : List UserRec
  manuscripts : List ManuscriptRec
  reviews : List ReviewRec
  notifications : List NotificationRec
  deriving DecidableEq

/-- The distinct `res.status(4xx)` early returns of the workflow handlers,
named after the error taxonomy of the spec. -/
inductive ApiError where
  | notFound
  | validationMissingFile
  | validationMissingFields
  | validationEmptyReviewerList
  | validationInvalidReviewers
  | validationInvalidStatus
  | validationInvalidDecision
  | authorizationNotAssigned
  | conflictAlreadyReviewed
  | stateNotDecisionReady
  | unauthenticated
  deriving DecidableEq

/-- A storage write, recorded in program order by each handler. -/
inductive Event where
  | manuscriptCreate (mid : Nat)
  | manuscriptWrite (mid : Nat)
  | reviewCreate (mid rid : Nat)
  | notifCreate (target : Nat)
  deriving DecidableEq

/-- `User.findById`. -/
def findUser (db : DB) (uid : Nat) : Option UserRec :=
  db.users.find? (fun u => u.uid == uid)

/-- `X = await User.findById(u).select('fullname'); X?.fullname || fb`
(JavaScript `||` also replaces an empty string). -/
def displayName (db : DB) (uid : Nat) (fb : String) : String :=
  match findUser db uid with
  | some u => if u.fullname == "" then fb else u.fullname
  | none => fb

/-- `User.find({ role: { $in: [ADMIN, EDITOR] } })` — note: no `isActive`
filter in the source. -/
def adminsAndEditors (db : DB) : List UserRec :=
  db.users.filter (fun u => u.role == Role.admin || u.role == Role.editor)

/-- `User.find({ role: ADMIN })`. -/
def adminUsers (db : DB) : List UserRec :=
  db.users.filter (fun u => u.role == Role.admin)

/-- `User.find({ _id: { $in: reviewerIds }, role: REVIEWER, isActive: true })` —
the `reviewers` lookup of `assignReviewers`. -/
def matchedReviewers (db : DB) (reviewerIds : List Nat) : List UserRec :=
  db.users.filter (fun u => reviewerIds.contains u.uid && u.role == Role.reviewer && u.isActive)

/-- `Manuscript.findById`. -/
def findManuscript (db : DB) (mid : Nat) : Option ManuscriptRec :=
  db.manuscripts.find? (fun m => m.mid == mid)

/-- `manuscript.save()`: write back the (mutated) document. -/
def saveManuscript (db : DB) (m : ManuscriptRec) : DB :=
  { db with manuscripts := db.manuscripts.map (fun x => if x.mid == m.mid then m else x) }

/-- `Notification.create({ userId, message })`. -/
def notify (db : DB) (target : Nat) (msg : String) : DB :=
  { db with notifications := db.notifications ++ [{ userId := target, message := msg, isRead := false }] }

/-- `Promise.all(targets.map(t => Notification.create({ userId: t, message })))`. -/
def notifyMany (db : DB) (targets : List Nat) (msg : String) : DB :=
  { db with notifications :=
      db.notifications ++ targets.map (fun t => { userId := t, message := msg, isRead := false }) }

/-- `Review.findOne({ manuscriptId, reviewerId })`. -/
def findReview (db : DB) (mid uid : Nat) : Option ReviewRec :=
  db.reviews.find? (fun r => r.manuscriptId == mid && r.reviewerId == uid)

/-- `Review.countDocuments({ manuscriptId })`. -/
def countReviewsFor (db : DB) (mid : Nat) : Nat :=
  (db.reviews.filter (fun r => r.manuscriptId == mid)).length

/-- The status of a manuscript as currently stored. -/
def statusOf (db : DB) (mid : Nat) : Option MStatus :=
  (findManuscript db mid).map (fun m => m.status)

/-- The store a handler result leaves behind: the new store on success, the
unchanged one on an error (every error return in the source precedes every
write). -/
def runDB (r : Except ApiError (DB × List Event)) (db : DB) : DB :=
  match r with
  | Except.ok (db1, _) => db1
  | Except.error _ => db

/-- The write trace of a handler result (empty on an error). -/
def runEvents (r : Except ApiError (DB × List Event)) : List Event :=
  match r with
  | Except.ok (_, evs) => evs
  | Except.error _ => []

/-- Request payload of `POST /manuscripts/submit`; `hasFile` models the
presence of `req.file`, `userId` the identity attached by the auth
middleware. -/
structure SubmitInput where
  title : String
  abstract : String
  keywords : String
  authors : String
  hasFile : Bool
  fileName : String
  fileUrl : String
  userId : Option Nat
  deriving DecidableEq

/-- `submitManuscript` (userController.ts): file check, required-field
check, auth check, `Manuscript.create` in status SUBMITTED with no assigned
reviewers, one notification to the author, then one per ADMIN/EDITOR user.
`newMid` stands for the fresh document id the store generates. -/
def submitManuscript (db : DB) (inp : SubmitInput) (newMid : Nat) :
    Except ApiError (DB × List Event) :=
  if !inp.hasFile then Except.error ApiError.validationMissingFile
  else if inp.title == "" || inp.abstract == "" || inp.keywords == "" || inp.authors == "" then
    Except.error ApiError.validationMissingFields
  else
    match inp.userId with
    | none => Except.error ApiError.unauthenticated
    | some uid =>
      let m : ManuscriptRec :=
        { mid := newMid, title := inp.title, abstract := inp.abstract,
          keywords := inp.keywords, authors := inp.authors, submittedBy := uid,
          assignedReviewers := [], status := MStatus.SUBMITTED,
          fileName := inp.fileName, fileUrl := inp.fileUrl }
      let db1 : DB := { db with manuscripts := db.manuscripts ++ [m] }
      let authorName := displayName db1 uid "An author"
      let db2 := notify db1 uid
        ("Your manuscript \"" ++ inp.title ++ "\" has been submitted successfully and is awaiting review.")
      let adminEds := adminsAndEditors db2
      let db3 := notifyMany db2 (adminEds.map (fun u => u.uid))
        ("New manuscript submission: \"" ++ inp.title ++ "\" by " ++ authorName)
      Except.ok (db3,
        Event.manuscriptCreate newMid :: Event.notifCreate uid ::
          adminEds.map (fun u => Event.notifCreate u.uid))

/-- `assignReviewers` (userController.ts): empty-list check first, then
manuscript lookup, then the count comparison between the users matching
`{_id: {$in: reviewerIds}, role: REVIEWER, isActive: true}` and the supplied
list; on success overwrites `assignedReviewers`, forces UNDER_REVIEW, and
notifies the author, each id in `reviewerIds`, and every ADMIN/EDITOR. -/
def assignReviewers (db : DB) (mid : Nat) (reviewerIds : List Nat) (actingEditor : Nat) :
    Except ApiError (DB × List Event) :=
  if reviewerIds.isEmpty then Except.error ApiError.validationEmptyReviewerList
  else
    match findManuscript db mid with
    | none => Except.error ApiError.notFound
    | some m =>
      let reviewers := matchedReviewers db reviewerIds
      if reviewers.length ≠ reviewerIds.length then
        Except.error ApiError.validationInvalidReviewers
      else
        let m1 := { m with assignedReviewers := reviewerIds, status := MStatus.UNDER_REVIEW }
        let db1 := saveManuscript db m1
        let editorName := displayName db1 actingEditor "An editor"
        let authorName := displayName db1 m.submittedBy "Unknown author"
        let db2 := notify db1 m.submittedBy
          ("Your manuscript \"" ++ m.title ++ "\" has been assigned to reviewers and is now under review.")
        let db3 := notifyMany db2 reviewerIds
          ("You have been assigned to review the manuscript \"" ++ m.title ++ "\" by " ++ authorName ++ ".")
        let adminEds := adminsAndEditors db3
        let db4 := notifyMany db3 (adminEds.map (fun u => u.uid))
          (editorName ++ " assigned reviewers to manuscript \"" ++ m.title ++ "\" by " ++ authorName ++ ".")
        Except.ok (db4,
          Event.manuscriptWrite mid :: Event.notifCreate m.submittedBy ::
            (reviewerIds.map Event.notifCreate ++ adminEds.map (fun u => Event.notifCreate u.uid)))

/-- `updateManuscriptStatus` (userController.ts), the administrative
override: `none` models a missing or non-enum `status` value; otherwise
`findByIdAndUpdate(id, { status })`. -/
def updateManuscriptStatus (db : DB) (mid : Nat) (statusInput : Option MStatus) :
    Except ApiError (DB × List Event) :=
  match statusInput with
  | none => Except.error ApiError.validationInvalidStatus
  | some st =>
    match findManuscript db mid with
    | none => Except.error ApiError.notFound
    | some m =>
      Except.ok (saveManuscript db { m with status := st }, [Event.manuscriptWrite mid])

/-- `submitReview` (userController.ts): auth check, manuscript lookup,
assigned-set membership check, duplicate-review check, `Review.create`,
notification to the author, notifications to all ADMIN/EDITOR users, then
the escalation rule: recount reviews after the insert and compare with the
number of assigned reviewers (DECISION_READY on `≥`, otherwise
SUBMITTED→UNDER_REVIEW on a first review, otherwise no manuscript write). -/
def submitReview (db : DB) (mid : Nat) (userId : Option Nat) (recommendation : Recommendation)
    (comments strengths weaknesses suggestions : String) :
    Except ApiError (DB × List Event) :=
  match userId with
  | none => Except.error ApiError.unauthenticated
  | some uid =>
    match findManuscript db mid with
    | none => Except.error ApiError.notFound
    | some m =>
      if !m.assignedReviewers.contains uid then Except.error ApiError.authorizationNotAssigned
      else
        match findReview db mid uid with
        | some _ => Except.error ApiError.conflictAlreadyReviewed
        | none =>
          let rv : ReviewRec :=
            { manuscriptId := mid, reviewerId := uid, recommendation := recommendation,
              comments := comments, strengths := strengths, weaknesses := weaknesses,
              suggestions := suggestions }
          let db1 : DB := { db with reviews := db.reviews ++ [rv] }
          let reviewerName := displayName db1 uid "A reviewer"
          let authorName := displayName db1 m.submittedBy "Unknown author"
          let db2 := notify db1 m.submittedBy
            ("A review has been submitted for your manuscript \"" ++ m.title ++ "\".")
          let adminEds := adminsAndEditors db2
          let db3 := notifyMany db2 (adminEds.map (fun u => u.uid))
            (reviewerName ++ " submitted a review for manuscript \"" ++ m.title ++ "\" by " ++ authorName ++ ".")
          let totalReviews := countReviewsFor db3 mid
          let totalAssignedReviewers := m.assignedReviewers.length
          if totalReviews ≥ totalAssignedReviewers then
            Except.ok (saveManuscript db3 { m with status := MStatus.DECISION_READY },
              Event.reviewCreate mid uid :: Event.notifCreate m.submittedBy ::
                (adminEds.map (fun u => Event.notifCreate u.uid) ++ [Event.manuscriptWrite mid]))
          else if m.status = MStatus.SUBMITTED then
            Except.ok (saveManuscript db3 { m with status := MStatus.UNDER_REVIEW },
              Event.reviewCreate mid uid :: Event.notifCreate m.submittedBy ::
                (adminEds.map (fun u => Event.notifCreate u.uid) ++ [Event.manuscriptWrite mid]))
          else
            Except.ok (db3,
              Event.reviewCreate mid uid :: Event.notifCreate m.submittedBy ::
                adminEds.map (fun u => Event.notifCreate u.uid))

/-- `makeDecision` (userController.ts): decision validated against the two
literals before anything else, then manuscript lookup, then the
DECISION_READY guard; on success writes the terminal status and notifies
the author and every ADMIN user. -/
def makeDecision (db : DB) (mid : Nat) (decision : String) (actingEditor : Nat) :
    Except ApiError (DB × List Event) :=
  if !(decision == "ACCEPTED" || decision == "REJECTED") then
    Except.error ApiError.validationInvalidDecision
  else
    match findManuscript db mid with
    | none => Except.error ApiError.notFound
    | some m =>
      if m.status ≠ MStatus.DECISION_READY then Except.error ApiError.stateNotDecisionReady
      else
        let m1 := { m with status := if decision == "ACCEPTED" then MStatus.ACCEPTED else MStatus.REJECTED }
        let db1 := saveManuscript db m1
        let editorName := displayName db1 actingEditor "An editor"
        let authorName := displayName db1 m.submittedBy "Unknown author"
        let decisionText := if decision == "ACCEPTED" then "accepted" else "rejected"
        let db2 := notify db1 m.submittedBy
          ("Your manuscript \"" ++ m.title ++ "\" has been " ++ decisionText ++ ".")
        let admins := adminUsers db2
        let db3 := notifyMany db2 (admins.map (fun u => u.uid))
          (editorName ++ " " ++ decisionText ++ " the manuscript \"" ++ m.title ++ "\" by " ++ authorName ++ ".")
        Except.ok (db3,
          Event.manuscriptWrite mid :: Event.notifCreate m.submittedBy ::
            admins.map (fun u => Event.notifCreate u.uid))

/-- `markAllAsRead` (notification controller):
`Notification.updateMany({ userId, isRead: false }, { isRead: true })` —
an unconditional bulk update that cannot fail, hence a total function. -/
def markAllAsRead (db : DB) (uid : Nat) : DB :=
  { db with notifications :=
      db.notifications.map (fun n =>
        if n.userId == uid && !n.isRead then { n with isRead := true } else n) }

/-! ## Store lemmas -/

/-- If a document with key `mid` is present, writing back `m1` at key `k =
mid` (with `m1.mid = mid`) makes the lookup return `m1`. -/
theorem find?_replace_self {l : List ManuscriptRec} {m : ManuscriptRec} (m1 : ManuscriptRec)
    {mid k : Nat} (hk : k = mid) (hm1 : m1.mid = mid)
    (hfind : l.find? (fun x => x.mid == mid) = some m) :
    (l.map (fun x => if x.mid == k then m1 else x)).find? (fun x => x.mid == mid) =
      some m1 := by
  subst hk
  induction l with
  | nil => simp at hfind
  | cons a l ih =>
    by_cases ha : a.mid = k
    · simp [ha, hm1]
    · rw [List.find?_cons_of_neg _ (by simp [ha])] at hfind
      simp only [List.map_cons]
      rw [if_neg (by simp [ha]), List.find?_cons_of_neg _ (by simp [ha])]
      exact ih hfind

/-- Writing back a document at a key different from `mid'` does not change
the lookup at `mid'`. -/
theorem find?_replace_ne {l : List ManuscriptRec} (m1 : ManuscriptRec) {mid' k : Nat}
    (hk : k ≠ mid') (h : m1.mid ≠ mid') :
    (l.map (fun x => if x.mid == k then m1 else x)).find? (fun x => x.mid == mid') =
      l.find? (fun x => x.mid == mid') := by
  induction l with
  | nil => rfl
  | cons a l ih =>
    by_cases ha : a.mid = k
    · rw [List.map_cons, if_pos (by simp [ha])]
      rw [List.find?_cons_of_neg _ (by simp [h]), List.find?_cons_of_neg _ (by simp [ha ▸ hk])]
      exact ih
    · rw [List.map_cons, if_neg (by simp [ha])]
      by_cases ha' : a.mid = mid'
      · simp [ha']
      · rw [List.find?_cons_of_neg _ (by simp [ha']), List.find?_cons_of_neg _ (by simp [ha'])]
        exact ih

/-- A successful lookup returns a document carrying the looked-up key. -/
theorem findManuscript_mid {db : DB} {mid : Nat} {m : ManuscriptRec}
    (h : findManuscript db mid = some m) : m.mid = mid := by
  have := List.find?_some h
  simpa using this

/-! ## C8 — markAllRead is idempotent -/

/-- C8: `markAllRead` is idempotent: for every user and every notification
store state, running it twice yields the same store as running it once (and
being a total function of the store, it never fails, whatever the number of
unread notifications). -/
theorem markAllAsRead_idem (db : DB) (uid : Nat) :
    markAllAsRead (markAllAsRead db uid) uid = markAllAsRead db uid := by
  unfold markAllAsRead
  simp only [List.map_map]
  congr 1
  refine List.map_congr_left (fun n _ => ?_)
  by_cases h : (n.userId == uid && !n.isRead) = true
  · simp [Function.comp, h]
  · simp [Function.comp, h]

/-! ## C1 — review submission escalates the manuscript status -/

/-- C1: on a successful `submitReview` (existing manuscript, assigned
reviewer, no prior review), if the review count after the insert reaches the
number of assigned reviewers the status becomes DECISION_READY; if it is
strictly smaller the status stays UNDER_REVIEW, except that a manuscript
still in SUBMITTED moves to UNDER_REVIEW. -/
theorem submitReview_status_escalation
    (db : DB) (mid uid : Nat) (m : ManuscriptRec) (rc : Recommendation)
    (c s w g : String) (db1 : DB) (evs : List Event)
    (hfind : findManuscript db mid = some m)
    (hass : uid ∈ m.assignedReviewers)
    (hnew : findReview db mid uid = none)
    (hrun : submitReview db mid (some uid) rc c s w g = Except.ok (db1, evs)) :
    (countReviewsFor db mid + 1 ≥ m.assignedReviewers.length →
      statusOf db1 mid = some MStatus.DECISION_READY) ∧
    (countReviewsFor db mid + 1 < m.assignedReviewers.length →
      m.status = MStatus.UNDER_REVIEW → statusOf db1 mid = some MStatus.UNDER_REVIEW) ∧
    (countReviewsFor db mid + 1 < m.assignedReviewers.length →
      m.status = MStatus.SUBMITTED → statusOf db1 mid = some MStatus.UNDER_REVIEW) := by
  have hcont : m.assignedReviewers.contains uid = true := by
    simpa [List.elem_iff] using hass
  have hmid : m.mid = mid := findManuscript_mid hfind
  simp only [submitReview, hfind, hcont, hnew, Bool.not_true, Bool.false_eq_true,
    if_false, countReviewsFor, notify, notifyMany, List.filter_append] at hrun
  simp only [List.filter_cons, beq_self_eq_true, if_true, List.filter_nil,
    List.length_append, List.length_cons, List.length_nil, Nat.zero_add] at hrun
  refine ⟨fun hge => ?_, fun hlt hst => ?_, fun hlt hst => ?_⟩
  · rw [if_pos (by simpa [countReviewsFor] using hge)] at hrun
    injection hrun with h
    injection h with hdb hev
    subst hdb
    simp only [statusOf, findManuscript, saveManuscript]
    rw [find?_replace_self _ hmid (by simpa using hmid) hfind]
    rfl
  · rw [if_neg (by simpa [countReviewsFor] using Nat.not_le_of_lt hlt),
      if_neg (by simp [hst])] at hrun
    injection hrun with h
    injection h with hdb hev
    subst hdb
    simp only [statusOf, findManuscript]
    rw [show (db.manuscripts.find? fun x => x.mid == mid) = some m from hfind]
    simp [hst]
  · rw [if_neg (by simpa [countReviewsFor] using Nat.not_le_of_lt hlt),
      if_pos hst] at hrun
    injection hrun with h
    injection h with hdb hev
    subst hdb
    simp only [statusOf, findManuscript, saveManuscript]
    rw [find?_replace_self _ hmid (by simpa using hmid) hfind]
    rfl

/-- Manuscript used by the concrete C1 scenario: one assigned reviewer,
currently UNDER_REVIEW, no reviews yet. -/
def mC1 : ManuscriptRec :=
  { mid := 1, title := "T", abstract := "A", keywords := "K", authors := "Au",
    submittedBy := 5, assignedReviewers := [2], status := MStatus.UNDER_REVIEW,
    fileName := "f.pdf", fileUrl := "/uploads/manuscripts/f.pdf" }

/-- Store for the concrete C1 scenario. -/
def dbC1 : DB := { users := [], manuscripts := [mC1], reviews := [], notifications := [] }

/-- Store after the C1 review submission. -/
def dbC1out : DB := runDB (submitReview dbC1 1 (some 2) Recommendation.ACCEPT "ok" "" "" "") dbC1

/-- Events of the C1 review submission. -/
def evC1 : List Event := runEvents (submitReview dbC1 1 (some 2) Recommendation.ACCEPT "ok" "" "" "")

/-- Witness for C1: submitting the single assigned reviewer's review on a
concrete UNDER_REVIEW manuscript makes its stored status DECISION_READY. -/
theorem submitReview_status_escalation_witness :
    statusOf dbC1out 1 = some MStatus.DECISION_READY :=
  (submitReview_status_escalation dbC1 1 2 mC1 Recommendation.ACCEPT "ok" "" "" "" dbC1out evC1
    rfl (by decide) rfl rfl).1 (by decide)

/-! ## C10 — the administrative override only touches the status field -/

/-- C10: for every existing manuscript and valid status value, the
administrative `setStatus` override (`updateManuscriptStatus`) replaces only
the `status` field of that manuscript (the stored record becomes
`{ m with status := st }`, so title, abstract, keywords, authors,
submittedBy, assignedReviewers and file metadata are untouched), leaves
every other manuscript untouched, and creates or deletes no user, review or
notification. -/
theorem updateManuscriptStatus_frame
    (db : DB) (mid : Nat) (st : MStatus) (m : ManuscriptRec) (db1 : DB) (evs : List Event)
    (hfind : findManuscript db mid = some m)
    (hrun : updateManuscriptStatus db mid (some st) = Except.ok (db1, evs)) :
    findManuscript db1 mid = some { m with status := st } ∧
    (∀ mid2, mid2 ≠ mid → findManuscript db1 mid2 = findManuscript db mid2) ∧
    db1.users = db.users ∧ db1.reviews = db.reviews ∧ db1.notifications = db.notifications := by
  have hmid : m.mid = mid := findManuscript_mid hfind
  simp only [updateManuscriptStatus, hfind] at hrun
  injection hrun with h
  injection h with hdb hev
  subst hdb
  refine ⟨?_, fun mid2 hne => ?_, rfl, rfl, rfl⟩
  · simp only [findManuscript, saveManuscript]
    rw [find?_replace_self _ hmid (by simpa using hmid) hfind]
  · simp only [findManuscript, saveManuscript]
    rw [find?_replace_ne _ (by simpa [hmid] using hne.symm) (by simpa using hmid ▸ hne.symm)]

/-- Store after the C10 override on the concrete C1 store. -/
def dbC10out : DB := runDB (updateManuscriptStatus dbC1 1 (some MStatus.ACCEPTED)) dbC1

/-- Witness for C10: overriding the concrete manuscript's status to ACCEPTED
stores exactly the old record with only `status` replaced. -/
theorem updateManuscriptStatus_frame_witness :
    findManuscript dbC10out 1 = some { mC1 with status := MStatus.ACCEPTED } :=
  (updateManuscriptStatus_frame dbC1 1 MStatus.ACCEPTED mC1 dbC10out
    (runEvents (updateManuscriptStatus dbC1 1 (some MStatus.ACCEPTED))) rfl rfl).1

/-! ## C4 — makeDecision guards -/

/-- C4: for every existing manuscript whose status is not DECISION_READY,
`makeDecision` with a valid decision fails with StateError and leaves the
stored status unchanged; and with any decision value other than ACCEPTED or
REJECTED it fails with ValidationError (whatever the manuscript). -/
theorem makeDecision_guards (db : DB) (mid : Nat) (d : String) (eid : Nat) :
    (∀ m, findManuscript db mid = some m → m.status ≠ MStatus.DECISION_READY →
      (d = "ACCEPTED" ∨ d = "REJECTED") →
      makeDecision db mid d eid = Except.error ApiError.stateNotDecisionReady ∧
      statusOf (runDB (makeDecision db mid d eid) db) mid = some m.status) ∧
    (d ≠ "ACCEPTED" → d ≠ "REJECTED" →
      makeDecision db mid d eid = Except.error ApiError.validationInvalidDecision) := by
  constructor
  · intro m hfind hst hd
    have hvalid : (!(d == "ACCEPTED" || d == "REJECTED")) = false := by
      rcases hd with h | h <;> simp [h]
    have herr : makeDecision db mid d eid = Except.error ApiError.stateNotDecisionReady := by
      simp [makeDecision, hvalid, hfind, hst]
    refine ⟨herr, ?_⟩
    rw [herr]
    simp [runDB, statusOf, hfind]
  · intro hd1 hd2
    simp [makeDecision, hd1, hd2]

/-- Witness for C4: on the concrete UNDER_REVIEW manuscript, a valid
ACCEPTED decision is refused with the StateError, and an invalid decision
string is refused with the ValidationError. -/
theorem makeDecision_guards_witness :
    makeDecision dbC1 1 "ACCEPTED" 9 = Except.error ApiError.stateNotDecisionReady ∧
    makeDecision dbC1 1 "MAYBE" 9 = Except.error ApiError.validationInvalidDecision :=
  ⟨((makeDecision_guards dbC1 1 "ACCEPTED" 9).1 mC1 rfl (by decide) (Or.inl rfl)).1,
    (makeDecision_guards dbC1 1 "MAYBE" 9).2 (by decide) (by decide)⟩

/-! ## C2 — ACCEPTED/REJECTED are not terminal under the normal path -/

/-- Manuscript already ACCEPTED, used to refute the terminality claim. -/
def mC2 : ManuscriptRec :=
  { mid := 1, title := "T2", abstract := "A2", keywords := "K2", authors := "Au2",
    submittedBy := 5, assignedReviewers := [], status := MStatus.ACCEPTED,
    fileName := "g.pdf", fileUrl := "/uploads/manuscripts/g.pdf" }

/-- Store with an ACCEPTED manuscript and one active reviewer. -/
def dbC2 : DB :=
  { users := [{ uid := 2, fullname := "Rev", role := Role.reviewer, isActive := true }],
    manuscripts := [mC2], reviews := [], notifications := [] }

/-- Counterexample to C2 as stated: `assignReviewers` on an ACCEPTED
manuscript succeeds and moves its status to UNDER_REVIEW — the normal
(non-override) path does change a terminal status. -/
theorem assignReviewers_moves_accepted :
    statusOf dbC2 1 = some MStatus.ACCEPTED ∧
    statusOf (runDB (assignReviewers dbC2 1 [2] 9) dbC2) 1 = some MStatus.UNDER_REVIEW :=
  ⟨rfl, rfl⟩

/-- C2 (amended): among the normal operations only `makeDecision` never
moves an ACCEPTED or REJECTED manuscript — it always fails (StateError for
a valid decision, ValidationError otherwise) and the stored status is
unchanged; `assignReviewers` (which unconditionally forces UNDER_REVIEW)
and `submitReview` (whose escalation ignores the current status) can move
such a manuscript. -/
theorem makeDecision_terminal_guard
    (db : DB) (mid : Nat) (m : ManuscriptRec) (d : String) (eid : Nat)
    (hfind : findManuscript db mid = some m)
    (hterm : m.status = MStatus.ACCEPTED ∨ m.status = MStatus.REJECTED) :
    (∃ e, makeDecision db mid d eid = Except.error e) ∧
    statusOf (runDB (makeDecision db mid d eid) db) mid = some m.status := by
  have hst : m.status ≠ MStatus.DECISION_READY := by
    rcases hterm with h | h <;> simp [h]
  by_cases hd : d = "ACCEPTED" ∨ d = "REJECTED"
  · obtain ⟨herr, hstat⟩ := (makeDecision_guards db mid d eid).1 m hfind hst hd
    exact ⟨⟨ApiError.stateNotDecisionReady, herr⟩, hstat⟩
  · push_neg at hd
    have herr := (makeDecision_guards db mid d eid).2 hd.1 hd.2
    refine ⟨⟨ApiError.validationInvalidDecision, herr⟩, ?_⟩
    rw [herr]
    simp [runDB, statusOf, hfind]

/-- Witness for the amended C2: deciding on the concrete ACCEPTED
manuscript leaves its stored status ACCEPTED. -/
theorem makeDecision_terminal_guard_witness :
    statusOf (runDB (makeDecision dbC2 1 "REJECTED" 9) dbC2) 1 = some MStatus.ACCEPTED :=
  (makeDecision_terminal_guard dbC2 1 mC2 "REJECTED" 9 rfl (Or.inl rfl)).2

/-! ## C3 — duplicate review by the same reviewer -/

/-- Manuscript with reviewer 2 removed from the assigned set. -/
def mC3 : ManuscriptRec :=
  { mid := 1, title := "T3", abstract := "A3", keywords := "K3", authors := "Au3",
    submittedBy := 5, assignedReviewers := [], status := MStatus.UNDER_REVIEW,
    fileName := "h.pdf", fileUrl := "/uploads/manuscripts/h.pdf" }

/-- Review already recorded by reviewer 2 on manuscript 1. -/
def rvC3 : ReviewRec :=
  { manuscriptId := 1, reviewerId := 2, recommendation := Recommendation.ACCEPT,
    comments := "ok", strengths := "", weaknesses := "", suggestions := "" }

/-- Store where reviewer 2 already left a review on manuscript 1 but has
been removed from the assigned set (reassignment does not delete reviews). -/
def dbC3 : DB :=
  { users := [{ uid := 2, fullname := "Rev", role := Role.reviewer, isActive := true }],
    manuscripts := [mC3], reviews := [rvC3], notifications := [] }

/-- Counterexample to C3 as stated: a reviewer with a recorded review who is
no longer in the assigned set gets the AuthorizationError (403), not the
ConflictError, on a second submission — the assignment check runs first. -/
theorem submitReview_second_not_conflict :
    (findReview dbC3 1 2).isSome = true ∧
    submitReview dbC3 1 (some 2) Recommendation.ACCEPT "x" "" "" "" =
      Except.error ApiError.authorizationNotAssigned :=
  ⟨rfl, rfl⟩

/-- C3 (amended): a second `submitReview` by a reviewer who already has a
review for an existing manuscript fails with ConflictError and records no
new review, regardless of the manuscript's current status, provided the
reviewer is still in the assigned set (otherwise the earlier assignment
check fails first with AuthorizationError). -/
theorem submitReview_duplicate_conflict
    (db : DB) (mid uid : Nat) (m : ManuscriptRec) (rv : ReviewRec) (rc : Recommendation)
    (c s w g : String)
    (hfind : findManuscript db mid = some m)
    (hass : uid ∈ m.assignedReviewers)
    (hprev : findReview db mid uid = some rv) :
    submitReview db mid (some uid) rc c s w g = Except.error ApiError.conflictAlreadyReviewed ∧
    (runDB (submitReview db mid (some uid) rc c s w g) db).reviews = db.reviews := by
  have hcont : m.assignedReviewers.contains uid = true := by
    simpa [List.elem_iff] using hass
  have herr : submitReview db mid (some uid) rc c s w g =
      Except.error ApiError.conflictAlreadyReviewed := by
    simp [submitReview, hfind, hcont, hprev, hass]
  refine ⟨herr, ?_⟩
  rw [herr]
  rfl

/-- Store like `dbC3` but with reviewer 2 still assigned. -/
def dbC3b : DB :=
  { dbC3 with manuscripts := [{ mC3 with assignedReviewers := [2] }] }

/-- Witness for the amended C3: the still-assigned reviewer's second
submission is refused with the ConflictError and the review list is
unchanged. -/
theorem submitReview_duplicate_conflict_witness :
    submitReview dbC3b 1 (some 2) Recommendation.ACCEPT "x" "" "" "" =
      Except.error ApiError.conflictAlreadyReviewed :=
  (submitReview_duplicate_conflict dbC3b 1 2 { mC3 with assignedReviewers := [2] } rvC3
    Recommendation.ACCEPT "x" "" "" "" rfl (by decide) rfl).1

/-! ## C7 — submission notification fan-out -/

/-- C7: every successful manuscript submission creates exactly one
notification for the submitting author plus exactly one per user whose role
is ADMIN or EDITOR at submission time — the recipients of the newly created
notifications are exactly the author followed by the admins/editors,
independent of the submission's content. -/
theorem submitManuscript_fanout
    (db : DB) (inp : SubmitInput) (newMid uid : Nat) (db1 : DB) (evs : List Event)
    (huid : inp.userId = some uid)
    (hrun : submitManuscript db inp newMid = Except.ok (db1, evs)) :
    (db1.notifications.drop db.notifications.length).map (fun n => n.userId) =
      uid :: (adminsAndEditors db).map (fun u => u.uid) := by
  simp only [submitManuscript, huid, notify, notifyMany] at hrun
  split at hrun
  · simp at hrun
  · split at hrun
    · simp at hrun
    · injection hrun with h
      injection h with hdb hev
      subst hdb
      simp only [adminsAndEditors, List.append_assoc, List.singleton_append,
        List.drop_left, List.map_cons, List.map_map]
      rfl

/-- Users for the concrete C7 scenario: one admin, one editor, the author,
and an unrelated reviewer. -/
def dbC7 : DB :=
  { users := [{ uid := 7, fullname := "Ada", role := Role.admin, isActive := true },
      { uid := 8, fullname := "Ed", role := Role.editor, isActive := true },
      { uid := 5, fullname := "Au", role := Role.author, isActive := true },
      { uid := 2, fullname := "Rev", role := Role.reviewer, isActive := true }],
    manuscripts := [], reviews := [], notifications := [] }

/-- A complete submission payload by user 5. -/
def inpC7 : SubmitInput :=
  { title := "T", abstract := "A", keywords := "K", authors := "Au",
    hasFile := true, fileName := "f.pdf", fileUrl := "/uploads/manuscripts/f.pdf",
    userId := some 5 }

/-- Store after the concrete C7 submission. -/
def subOutC7 : DB := runDB (submitManuscript dbC7 inpC7 1) dbC7

/-- Events of the concrete C7 submission. -/
def subEvC7 : List Event := runEvents (submitManuscript dbC7 inpC7 1)

/-- Witness for C7: the concrete submission notifies exactly the author (5)
and then the admin (7) and the editor (8). -/
theorem submitManuscript_fanout_witness :
    (subOutC7.notifications.drop dbC7.notifications.length).map (fun n => n.userId) =
      5 :: (adminsAndEditors dbC7).map (fun u => u.uid) :=
  submitManuscript_fanout dbC7 inpC7 1 5 subOutC7 subEvC7 rfl rfl

/-! ## C6 and C9 — assignReviewers contract -/

/-- If some supplied ID resolves to no active reviewer, the matched-user
count falls short of the supplied list's length (user ids are unique in the
store). -/
theorem matchedReviewers_length_lt_of_bad
    (db : DB) (ids : List Nat) (b : Nat)
    (husers : (db.users.map (fun u => u.uid)).Nodup)
    (hb : b ∈ ids)
    (hbad : ∀ u ∈ db.users, ¬(u.uid = b ∧ u.role = Role.reviewer ∧ u.isActive = true)) :
    (matchedReviewers db ids).length < ids.length := by
  have hnod : ((matchedReviewers db ids).map (fun u => u.uid)).Nodup :=
    ((List.filter_sublist _).map _).nodup husers
  have hsub : (matchedReviewers db ids).map (fun u => u.uid) ⊆
      ids.filter (fun x => !(x == b)) := by
    intro x hx
    obtain ⟨u, hu, rfl⟩ := List.mem_map.mp hx
    obtain ⟨humem, hcond⟩ := List.mem_filter.mp hu
    simp only [Bool.and_eq_true, beq_iff_eq, List.contains, List.elem_iff] at hcond
    obtain ⟨⟨hin, hrole⟩, hact⟩ := hcond
    have hune : u.uid ≠ b := fun h => hbad u humem ⟨h, hrole, hact⟩
    simp [List.mem_filter, hin, hune]
  have h1 : ((matchedReviewers db ids).map (fun u => u.uid)).length ≤
      (ids.filter (fun x => !(x == b))).length := (hnod.subperm hsub).length_le
  have h2 : (ids.filter (fun x => !(x == b))).length < ids.length := by
    rcases Nat.lt_or_ge (ids.filter (fun x => !(x == b))).length ids.length with h | h
    · exact h
    · exfalso
      have hall := List.filter_length_eq_length.mp
        (Nat.le_antisymm (List.length_filter_le _ _) h)
      have := hall b hb
      simp at this
  have h3 : ((matchedReviewers db ids).map (fun u => u.uid)).length =
      (matchedReviewers db ids).length := List.length_map _ _
  omega

/-- If the supplied list contains a duplicate, the matched-user count falls
short of the list's length, whatever the IDs resolve to. -/
theorem matchedReviewers_length_lt_of_dup
    (db : DB) (ids : List Nat)
    (husers : (db.users.map (fun u => u.uid)).Nodup)
    (hdup : ¬ ids.Nodup) :
    (matchedReviewers db ids).length < ids.length := by
  have hnod : ((matchedReviewers db ids).map (fun u => u.uid)).Nodup :=
    ((List.filter_sublist _).map _).nodup husers
  have hsub : (matchedReviewers db ids).map (fun u => u.uid) ⊆ ids.dedup := by
    intro x hx
    obtain ⟨u, hu, rfl⟩ := List.mem_map.mp hx
    obtain ⟨_, hcond⟩ := List.mem_filter.mp hu
    simp only [Bool.and_eq_true, beq_iff_eq, List.contains, List.elem_iff] at hcond
    exact List.mem_dedup.mpr hcond.1.1
  have h1 : ((matchedReviewers db ids).map (fun u => u.uid)).length ≤ ids.dedup.length :=
    (hnod.subperm hsub).length_le
  have h2 : ids.dedup.length < ids.length := by
    rcases Nat.lt_or_ge ids.dedup.length ids.length with h | h
    · exact h
    · exfalso
      have heq := (List.dedup_sublist ids).eq_of_length
        (Nat.le_antisymm ((List.dedup_sublist ids).length_le) h)
      exact hdup (heq ▸ List.nodup_dedup ids)
  have h3 : ((matchedReviewers db ids).map (fun u => u.uid)).length =
      (matchedReviewers db ids).length := List.length_map _ _
  omega

/-- C6 (amended): `assignReviewers` fails with the empty-list
ValidationError if `reviewerIds` is empty (this check precedes the
manuscript lookup), fails with NotFoundError if the manuscript is absent
and `reviewerIds` is non-empty, fails with the invalid-ids ValidationError
if some supplied ID does not resolve to an active REVIEWER, and on success
overwrites the assigned-reviewer set with exactly the supplied IDs, sets
the status to UNDER_REVIEW, and creates one notification for the author,
one per assigned reviewer, and one per ADMIN/EDITOR user. -/
theorem assignReviewers_spec
    (db : DB) (mid : Nat) (ids : List Nat) (eid : Nat)
    (husers : (db.users.map (fun u => u.uid)).Nodup) :
    (ids = [] → assignReviewers db mid ids eid =
      Except.error ApiError.validationEmptyReviewerList) ∧
    (ids ≠ [] → findManuscript db mid = none →
      assignReviewers db mid ids eid = Except.error ApiError.notFound) ∧
    (∀ m, findManuscript db mid = some m →
      (∃ b ∈ ids, ∀ u ∈ db.users, ¬(u.uid = b ∧ u.role = Role.reviewer ∧ u.isActive = true)) →
      assignReviewers db mid ids eid = Except.error ApiError.validationInvalidReviewers) ∧
    (∀ m db1 evs, findManuscript db mid = some m →
      assignReviewers db mid ids eid = Except.ok (db1, evs) →
      findManuscript db1 mid =
        some { m with assignedReviewers := ids, status := MStatus.UNDER_REVIEW } ∧
      (db1.notifications.drop db.notifications.length).map (fun n => n.userId) =
        m.submittedBy :: (ids ++ (adminsAndEditors db).map (fun u => u.uid))) := by
  refine ⟨fun he => ?_, fun hne hnone => ?_, fun m hfind ⟨b, hb, hbad⟩ => ?_,
    fun m db1 evs hfind hrun => ?_⟩
  · subst he
    simp [assignReviewers]
  · rw [assignReviewers, if_neg (by simp [hne]), hnone]
  · have hlt := matchedReviewers_length_lt_of_bad db ids b husers hb hbad
    have hne : ids ≠ [] := by rintro rfl; simp at hb
    rw [assignReviewers, if_neg (by simp [hne]), hfind]
    simp only
    rw [if_pos (Nat.ne_of_lt hlt)]
  · have hmid : m.mid = mid := findManuscript_mid hfind
    simp only [assignReviewers, hfind, notify, notifyMany] at hrun
    split at hrun
    · simp at hrun
    · split at hrun
      · simp at hrun
      · injection hrun with h
        injection h with hdb hev
        subst hdb
        constructor
        · simp only [findManuscript, saveManuscript]
          rw [find?_replace_self _ hmid (by simpa using hmid) hfind]
        · simp only [adminsAndEditors, saveManuscript, List.append_assoc,
            List.singleton_append, List.drop_left, List.map_cons, List.map_append,
            List.map_map]
          simp [Function.comp_def]

/-- Witness for the amended C6: on the concrete store, an empty reviewer
list is refused, and assigning reviewer 2 overwrites the assigned set and
forces UNDER_REVIEW. -/
theorem assignReviewers_spec_witness :
    assignReviewers dbC2 1 [] 9 = Except.error ApiError.validationEmptyReviewerList ∧
    findManuscript (runDB (assignReviewers dbC2 1 [2] 9) dbC2) 1 =
      some { mC2 with assignedReviewers := [2], status := MStatus.UNDER_REVIEW } :=
  ⟨(assignReviewers_spec dbC2 1 [] 9 (by decide)).1 rfl,
   ((assignReviewers_spec dbC2 1 [2] 9 (by decide)).2.2.2 mC2
      (runDB (assignReviewers dbC2 1 [2] 9) dbC2)
      (runEvents (assignReviewers dbC2 1 [2] 9)) rfl rfl).1⟩

/-- Counterexample store for C6 as stated: no manuscript 99 exists, yet an
empty reviewer list is reported as a ValidationError, not NotFoundError. -/
theorem assignReviewers_empty_beats_notFound :
    findManuscript dbC2 99 = none ∧
    assignReviewers dbC2 99 [] 9 = Except.error ApiError.validationEmptyReviewerList :=
  ⟨rfl, rfl⟩

/-- C9: `assignReviewers` with a duplicated ID in `reviewerIds` fails with
the invalid-ids ValidationError even when every supplied ID resolves to an
active REVIEWER, because the count of distinct matching users is compared
against the length of the supplied list. -/
theorem assignReviewers_duplicate_ids
    (db : DB) (mid : Nat) (ids : List Nat) (eid : Nat) (m : ManuscriptRec)
    (husers : (db.users.map (fun u => u.uid)).Nodup)
    (hfind : findManuscript db mid = some m)
    (hdup : ¬ ids.Nodup)
    (hall : ∀ b ∈ ids, ∃ u ∈ db.users, u.uid = b ∧ u.role = Role.reviewer ∧ u.isActive = true) :
    assignReviewers db mid ids eid = Except.error ApiError.validationInvalidReviewers := by
  have hlt := matchedReviewers_length_lt_of_dup db ids husers hdup
  have hne : ids ≠ [] := by rintro rfl; exact hdup List.nodup_nil
  rw [assignReviewers, if_neg (by simp [hne]), hfind]
  simp only
  rw [if_pos (Nat.ne_of_lt hlt)]

/-- Witness for C9: assigning `[2, 2]` — reviewer 2 resolves to an active
REVIEWER — is refused with the invalid-ids ValidationError. -/
theorem assignReviewers_duplicate_ids_witness :
    assignReviewers dbC2 1 [2, 2] 9 = Except.error ApiError.validationInvalidReviewers :=
  assignReviewers_duplicate_ids dbC2 1 [2, 2] 9 mC2 (by decide) rfl (by decide)
    (by intro b hb
        refine ⟨{ uid := 2, fullname := "Rev", role := Role.reviewer, isActive := true }, ?_, ?_⟩
        · simp [dbC2]
        · simp [dbC2] at hb
          subst hb
          exact ⟨rfl, rfl, rfl⟩)

/-! ## C5 — ordering of notifications and state-changing writes -/

/-- A manuscript-document write: creation or save/update. -/
def isManuscriptWrite : Event → Bool
  | Event.manuscriptCreate _ => true
  | Event.manuscriptWrite _ => true
  | _ => false

/-- A review-document insertion. -/
def isReviewInsert : Event → Bool
  | Event.reviewCreate _ _ => true
  | _ => false

/-- A notification creation. -/
def isNotif : Event → Bool
  | Event.notifCreate _ => true
  | _ => false

/-- `notifPrecedes p evs` holds iff some notification creation occurs
strictly before some later event satisfying `p`. -/
def notifPrecedes (p : Event → Bool) : List Event → Bool
  | [] => false
  | e :: rest => (isNotif e && rest.any p) || notifPrecedes p rest

/-- Prepending a non-notification event preserves the absence of a
notification-before-`p` pattern. -/
theorem notifPrecedes_cons_of_not_notif {p : Event → Bool} {e : Event} {l : List Event}
    (he : isNotif e = false) (h : notifPrecedes p l = false) :
    notifPrecedes p (e :: l) = false := by
  simp [notifPrecedes, he, h]

/-- If no event of a trace satisfies `p`, no notification precedes a
`p`-event. -/
theorem notifPrecedes_eq_false {p : Event → Bool} {l : List Event}
    (h : ∀ e ∈ l, p e = false) : notifPrecedes p l = false := by
  induction l with
  | nil => rfl
  | cons e rest ih =>
    have hany : rest.any p = false := by
      rw [List.any_eq_false]
      intro x hx
      simp [h x (List.mem_cons_of_mem _ hx)]
    simp [notifPrecedes, hany, ih (fun x hx => h x (List.mem_cons_of_mem _ hx))]

/-- Counterexample to C5 as stated: a successful `submitReview` run whose
write trace places the author notification (and would place the
admin/editor ones) strictly before the manuscript status write — the
notifications are created before the manuscript's resulting status is
written. -/
theorem submitReview_notif_before_status_write :
    runEvents (submitReview dbC1 1 (some 2) Recommendation.ACCEPT "ok" "" "" "") =
      [Event.reviewCreate 1 2, Event.notifCreate 5, Event.manuscriptWrite 1] ∧
    notifPrecedes isManuscriptWrite
      (runEvents (submitReview dbC1 1 (some 2) Recommendation.ACCEPT "ok" "" "" "")) = true :=
  ⟨rfl, rfl⟩

/-- C5 (amended): in every workflow operation no notification is created
before the operation's first state-changing write — the manuscript
create/save for `submitManuscript`, `assignReviewers` and `makeDecision`,
and the Review insert for `submitReview`.  In `submitReview`, however, the
notifications are created after the Review insert but before the
manuscript status write (when one happens), not after it. -/
theorem workflow_notif_ordering :
    (∀ db inp newMid db1 evs, submitManuscript db inp newMid = Except.ok (db1, evs) →
      notifPrecedes isManuscriptWrite evs = false) ∧
    (∀ db mid ids eid db1 evs, assignReviewers db mid ids eid = Except.ok (db1, evs) →
      notifPrecedes isManuscriptWrite evs = false) ∧
    (∀ db mid d eid db1 evs, makeDecision db mid d eid = Except.ok (db1, evs) →
      notifPrecedes isManuscriptWrite evs = false) ∧
    (∀ db mid u rc c s w g db1 evs, submitReview db mid u rc c s w g = Except.ok (db1, evs) →
      notifPrecedes isReviewInsert evs = false) := by
  refine ⟨fun db inp newMid db1 evs hrun => ?_, fun db mid ids eid db1 evs hrun => ?_,
    fun db mid d eid db1 evs hrun => ?_, fun db mid u rc c s w g db1 evs hrun => ?_⟩
  · simp only [submitManuscript] at hrun
    split at hrun
    · simp at hrun
    · split at hrun
      · simp at hrun
      · split at hrun
        · simp at hrun
        · injection hrun with h
          injection h with hdb hev
          subst hev
          refine notifPrecedes_cons_of_not_notif (by rfl) ?_
          apply notifPrecedes_eq_false
          intro e he
          simp only [List.mem_cons, List.mem_map] at he
          rcases he with rfl | ⟨x, _, rfl⟩ <;> rfl
  · simp only [assignReviewers] at hrun
    split at hrun
    · simp at hrun
    · split at hrun
      · simp at hrun
      · split at hrun
        · simp at hrun
        · injection hrun with h
          injection h with hdb hev
          subst hev
          refine notifPrecedes_cons_of_not_notif (by rfl) ?_
          apply notifPrecedes_eq_false
          intro e he
          simp only [List.mem_cons, List.mem_append, List.mem_map] at he
          rcases he with rfl | ⟨x, _, rfl⟩ | ⟨x, _, rfl⟩ <;> rfl
  · simp only [makeDecision] at hrun
    split at hrun
    · simp at hrun
    · split at hrun
      · simp at hrun
      · split at hrun
        · simp at hrun
        · injection hrun with h
          injection h with hdb hev
          subst hev
          refine notifPrecedes_cons_of_not_notif (by rfl) ?_
          apply notifPrecedes_eq_false
          intro e he
          simp only [List.mem_cons, List.mem_map] at he
          rcases he with rfl | ⟨x, _, rfl⟩ <;> rfl
  · simp only [submitReview] at hrun
    split at hrun
    · simp at hrun
    · split at hrun
      · simp at hrun
      · split at hrun
        · simp at hrun
        · split at hrun
          · simp at hrun
          · split at hrun
            · injection hrun with h
              injection h with hdb hev
              subst hev
              refine notifPrecedes_cons_of_not_notif (by rfl) ?_
              apply notifPrecedes_eq_false
              intro e he
              simp only [List.mem_cons, List.mem_append, List.mem_map,
                List.not_mem_nil, or_false] at he
              rcases he with rfl | ⟨x, _, rfl⟩ | rfl <;> rfl
            · split at hrun
              · injection hrun with h
                injection h with hdb hev
                subst hev
                refine notifPrecedes_cons_of_not_notif (by rfl) ?_
                apply notifPrecedes_eq_false
                intro e he
                simp only [List.mem_cons, List.mem_append, List.mem_map,
                  List.not_mem_nil, or_false] at he
                rcases he with rfl | ⟨x, _, rfl⟩ | rfl <;> rfl
              · injection hrun with h
                injection h with hdb hev
                subst hev
                refine notifPrecedes_cons_of_not_notif (by rfl) ?_
                apply notifPrecedes_eq_false
                intro e he
                simp only [List.mem_cons, List.mem_map] at he
                rcases he with rfl | ⟨x, _, rfl⟩ <;> rfl

/-- Witness for the amended C5: the concrete submission's trace has no
notification before a manuscript write, and the concrete review
submission's trace has no notification before the review insert. -/
theorem workflow_notif_ordering_witness :
    notifPrecedes isManuscriptWrite subEvC7 = false ∧
    notifPrecedes isReviewInsert evC1 = false :=
  ⟨workflow_notif_ordering.1 dbC7 inpC7 1 subOutC7 subEvC7 rfl,
   workflow_notif_ordering.2.2.2 dbC1 1 (some 2) Recommendation.ACCEPT "ok" "" "" "" dbC1out
     evC1 rfl⟩

end AcademiaFlow
